import Mathlib

/-!
Verification development for the Basecamp connector
(`app/data_source/sources/basecamp/basecamp.py`).

The Python module is shallowly embedded: raw remote records become Lean
structures, the document builder becomes a pure function returning
`Option` (a `none` models the Python exception raised by
`datetime.strptime` on an unparseable timestamp), the per-project feeding
loop becomes a function returning the list of enqueued documents together
with a success/abort flag, and the HTTP client pagination loop becomes a
fuel-indexed recursion over an abstract page/detail environment that also
records the trace of requests it issues.
-/

set_option autoImplicit false

namespace Basecamp

/-- Parsed value of an `updated_at` string, mirroring the fields of the
aware datetime that `datetime.strptime(s, "%Y-%m-%dT%H:%M:%S.%f%z")`
returns; the offset is kept as a sign, total seconds and microseconds,
the form CPython computes before building the timezone. -/
structure Timestamp where
  year : Nat
  month : Nat
  day : Nat
  hour : Nat
  minute : Nat
  second : Nat
  microsecond : Nat
  tzNeg : Bool
  tzSeconds : Nat
  tzMicro : Nat
deriving DecidableEq, Repr

/-- Numeric value of a decimal digit character. -/
def charVal (c : Char) : Nat := c.toNat - 48

/-- Number of days in a month, with the Gregorian leap rule, as validated
by the Python `datetime` constructor. -/
def daysInMonth (y m : Nat) : Nat :=
  if m = 2 then (if y % 4 = 0 ∧ (y % 100 ≠ 0 ∨ y % 400 = 0) then 29 else 28)
  else if m = 4 ∨ m = 6 ∨ m = 9 ∨ m = 11 then 30 else 31

/-- Embedding of one numeric directive of the CPython strptime regex
(`%m`, `%d`, `%H`, `%M`, `%S`), whose two-digit alternatives come
before the single-digit one: consume two digits when both characters
are digits and the value lies in `lo2..hi2`, otherwise one digit with
value at least `lo1`.  Committing to the two-digit branch is safe
because in this format every directive is followed by a non-digit
literal, so the engine can never backtrack into the one-digit branch
and still match. -/
def parseField (lo2 hi2 lo1 : Nat) : List Char → Option (Nat × List Char)
  | a :: b :: rest =>
    if a.isDigit ∧ b.isDigit ∧ lo2 ≤ 10 * charVal a + charVal b
        ∧ 10 * charVal a + charVal b ≤ hi2 then
      some (10 * charVal a + charVal b, rest)
    else if a.isDigit ∧ lo1 ≤ charVal a then
      some (charVal a, b :: rest)
    else none
  | [a] => if a.isDigit ∧ lo1 ≤ charVal a then some (charVal a, []) else none
  | [] => none

/-- Consume up to `n` leading digits. -/
def takeDigits : Nat → List Char → List Char × List Char
  | 0, cs => ([], cs)
  | n + 1, c :: cs =>
    if c.isDigit then
      let (ds, rest) := takeDigits n cs
      (c :: ds, rest)
    else ([], c :: cs)
  | _ + 1, [] => ([], [])

/-- Numeric value of a digit list. -/
def digitsVal (ds : List Char) : Nat := ds.foldl (fun n c => 10 * n + charVal c) 0

/-- Microsecond value of 1-6 fractional digits, right-padded with zeros
as CPython does. -/
def fracVal (ds : List Char) : Nat := digitsVal ds * 10 ^ (6 - ds.length)

/-- Optional fractional part after the seconds of a `%z` offset: a dot
followed by 1-6 digits; a dot without a digit leaves the group
unmatched (and the leftover input then fails the end-of-data check, as
in the engine). -/
def parseZFrac (ss : Nat) : List Char → Nat × Nat × List Char
  | '.' :: r =>
    let (ds, rest) := takeDigits 6 r
    if ds.length = 0 then (ss, 0, '.' :: r) else (ss, fracVal ds, rest)
  | r => (ss, 0, r)

/-- Optional seconds of a `%z` offset.  CPython accepts them only with
colon use consistent with the minutes (a mixed form either fails the
consistency check or leaves unconverted data, a `ValueError` both
ways); when no well-formed seconds follow, the group is unmatched and
any leftover input fails the end-of-data check. -/
def parseZSecs (colonUsed : Bool) (cs : List Char) : Nat × Nat × List Char :=
  match colonUsed, cs with
  | true, ':' :: s1 :: s2 :: r =>
    if s1.isDigit ∧ s2.isDigit ∧ charVal s1 ≤ 5 then
      parseZFrac (10 * charVal s1 + charVal s2) r
    else (0, 0, ':' :: s1 :: s2 :: r)
  | false, s1 :: s2 :: r =>
    if s1.isDigit ∧ s2.isDigit ∧ charVal s1 ≤ 5 then
      parseZFrac (10 * charVal s1 + charVal s2) r
    else (0, 0, s1 :: s2 :: r)
  | _, rest => (0, 0, rest)

/-- Embedding of the `%z` directive of CPython strptime: the single
(case-sensitive) letter Z for UTC, or a sign, two hour digits, an
optional colon, two minute digits (first at most 5), then optional
seconds and fraction via `parseZSecs`.  Returns the sign, the total
offset in seconds, the offset microseconds and the remaining input. -/
def parseZ : List Char → Option (Bool × Nat × Nat × List Char)
  | 'Z' :: rest => some (false, 0, 0, rest)
  | sg :: a :: b :: rest =>
    if (sg = '+' ∨ sg = '-') ∧ a.isDigit ∧ b.isDigit then
      let hh := 10 * charVal a + charVal b
      match rest with
      | ':' :: m1 :: m2 :: r2 =>
        if m1.isDigit ∧ m2.isDigit ∧ charVal m1 ≤ 5 then
          let (ss, micro, r3) := parseZSecs true r2
          some (sg = '-', hh * 3600 + (10 * charVal m1 + charVal m2) * 60 + ss, micro, r3)
        else none
      | m1 :: m2 :: r2 =>
        if m1.isDigit ∧ m2.isDigit ∧ charVal m1 ≤ 5 then
          let (ss, micro, r3) := parseZSecs false r2
          some (sg = '-', hh * 3600 + (10 * charVal m1 + charVal m2) * 60 + ss, micro, r3)
        else none
      | _ => none
    else none
  | _ => none

/-- Embedding of `datetime.strptime(s, "%Y-%m-%dT%H:%M:%S.%f%z")` with
the leniency of the CPython engine: exactly four year digits; one- or
two-digit month, day, hour, minute and second per the regex alternation
of each directive; a case-insensitive literal T (the whole format regex
is compiled case-insensitively); 1-6 fractional-second digits padded
right with zeros; an offset of the form +HHMM, +HH:MM, with optional
seconds and fraction, or Z.  The whole string must be consumed, and the
`datetime`/`timezone` constructors then enforce year at least 1, day
within the month, second at most 59 (the regex itself allows leap
seconds 60-61, which the constructor rejects) and an offset strictly
below 24 hours.  Returns `none` exactly when the Python call raises
`ValueError`. -/
def parseTimestamp (s : String) : Option Timestamp :=
  match s.data with
  | y1 :: y2 :: y3 :: y4 :: rest =>
    if y1.isDigit ∧ y2.isDigit ∧ y3.isDigit ∧ y4.isDigit then
      let year := 1000 * charVal y1 + 100 * charVal y2 + 10 * charVal y3 + charVal y4
      match rest with
      | '-' :: r1 =>
        match parseField 1 12 1 r1 with
        | some (month, '-' :: r3) =>
          match parseField 1 31 1 r3 with
          | some (day, t :: r5) =>
            if t = 'T' ∨ t = 't' then
              match parseField 0 23 0 r5 with
              | some (hour, ':' :: r7) =>
                match parseField 0 59 0 r7 with
                | some (minute, ':' :: r9) =>
                  match parseField 0 61 0 r9 with
                  | some (second, '.' :: r11) =>
                    let (ds, r12) := takeDigits 6 r11
                    if ds.length = 0 then none
                    else
                      match parseZ r12 with
                      | some (neg, tzs, tzm, r13) =>
                        if r13 = [] ∧ 1 ≤ year ∧ day ≤ daysInMonth year month
                            ∧ second ≤ 59 ∧ tzs < 86400 then
                          some ⟨year, month, day, hour, minute, second,
                                fracVal ds, neg, tzs, tzm⟩
                        else none
                      | none => none
                  | _ => none
                | _ => none
              | _ => none
            else none
          | _ => none
        | _ => none
      | _ => none
    else none
  | _ => none

/-- Helper for `html_to_text`: drops every character between an opening
angle bracket and the matching closing one. -/
def stripTags : Bool → List Char → List Char
  | _, [] => []
  | inTag, c :: cs =>
    if c = '<' then stripTags true cs
    else if c = '>' then stripTags false cs
    else if inTag then stripTags true cs
    else c :: stripTags false cs

/-- Modelled from the spec: `parsers.html.html_to_text`, imported by the
module but not part of the provided sources.  The spec describes it as a
pure HTML-to-plain-text converter (input HTML string, output text
string), so it is modelled as stripping markup tags and keeping the
text. -/
def html_to_text (s : String) : String := String.mk (stripTags false s.data)

/-- Embedding of Python string truthiness for a raw content field that
may be absent (`none`) or an empty string: both are falsy. -/
def isTruthy : Option String → Bool
  | none => false
  | some s => !s.isEmpty

/-- Raw `creator` object of a todo or comment. -/
structure RawPerson where
  name : String
  avatar_url : String
deriving DecidableEq, Repr

/-- Raw comment record as read from the detail JSON of a todo. -/
structure RawComment where
  id : Nat
  creator : RawPerson
  content : Option String
  updated_at : String
deriving DecidableEq, Repr

/-- Raw todo detail record as read from the remote JSON. -/
structure RawTodo where
  id : Nat
  creator : RawPerson
  content : String
  app_url : String
  updated_at : String
  comments : List RawComment
deriving DecidableEq, Repr

/-- The two document types used by the connector. -/
inductive DocumentType where
  | DOCUMENT
  | COMMENT
deriving DecidableEq, Repr

/-- Embedding of `BasicDocument` with the fields the connector fills in.
The type is recursive through the `children` list, so it is an inductive
with one constructor and accessor functions below. -/
inductive BasicDocument where
  | mk (id : Nat) (data_source_id : Nat) (type : DocumentType) (title : String)
      (content : Option String) (author : String) (author_image_url : String)
      (location : String) (url : String) (timestamp : Timestamp)
      (children : List BasicDocument) : BasicDocument

def BasicDocument.id : BasicDocument → Nat
  | .mk i _ _ _ _ _ _ _ _ _ _ => i

def BasicDocument.data_source_id : BasicDocument → Nat
  | .mk _ d _ _ _ _ _ _ _ _ _ => d

def BasicDocument.type : BasicDocument → DocumentType
  | .mk _ _ t _ _ _ _ _ _ _ _ => t

def BasicDocument.title : BasicDocument → String
  | .mk _ _ _ t _ _ _ _ _ _ _ => t

def BasicDocument.content : BasicDocument → Option String
  | .mk _ _ _ _ c _ _ _ _ _ _ => c

def BasicDocument.author : BasicDocument → String
  | .mk _ _ _ _ _ a _ _ _ _ _ => a

def BasicDocument.author_image_url : BasicDocument → String
  | .mk _ _ _ _ _ _ a _ _ _ _ => a

def BasicDocument.location : BasicDocument → String
  | .mk _ _ _ _ _ _ _ l _ _ _ => l

def BasicDocument.url : BasicDocument → String
  | .mk _ _ _ _ _ _ _ _ u _ _ => u

def BasicDocument.timestamp : BasicDocument → Timestamp
  | .mk _ _ _ _ _ _ _ _ _ ts _ => ts

def BasicDocument.children : BasicDocument → List BasicDocument
  | .mk _ _ _ _ _ _ _ _ _ _ cs => cs

/-- Embedding of the comment branch of `_feed_project_issues` (lines
109-125): builds one COMMENT `BasicDocument` from a raw comment.  A
`none` result models the `ValueError` raised by `strptime` on the
comment `updated_at`; every other field is total. -/
def buildComment (dsid : Nat) (projectName : String) (app_url : String)
    (c : RawComment) : Option BasicDocument :=
  match parseTimestamp c.updated_at with
  | none => none
  | some ts =>
    some (BasicDocument.mk c.id dsid DocumentType.COMMENT c.creator.name
      (if isTruthy c.content then some (html_to_text (c.content.getD "")) else none)
      c.creator.name c.creator.avatar_url projectName
      (app_url ++ "#comment_" ++ toString c.id) ts [])

/-- Embedding of the `for comment in todo["comments"]` loop: builds the
children in source order; the first comment whose build raises aborts
the whole todo (the exception propagates). -/
def buildChildren (dsid : Nat) (projectName : String) (app_url : String) :
    List RawComment → Option (List BasicDocument)
  | [] => some []
  | c :: cs =>
    match buildComment dsid projectName app_url c with
    | none => none
    | some d =>
      match buildChildren dsid projectName app_url cs with
      | none => none
      | some ds => some (d :: ds)

/-- Embedding of the body of the `for todo in ...` loop (lines 106-142):
builds the children, then the DOCUMENT parent.  Note the parent content
is `html_to_text(todo["content"])` with no emptiness check, unlike the
comment branch.  A `none` models the `ValueError` raised by `strptime`
on any `updated_at` of the todo or of one of its comments. -/
def buildTodoDoc (dsid : Nat) (projectName : String) (t : RawTodo) :
    Option BasicDocument :=
  match buildChildren dsid projectName t.app_url t.comments with
  | none => none
  | some children =>
    match parseTimestamp t.updated_at with
    | none => none
    | some ts =>
      some (BasicDocument.mk t.id dsid DocumentType.DOCUMENT t.creator.name
        (some (html_to_text t.content)) t.creator.name t.creator.avatar_url
        projectName t.app_url ts children)

/-- Result of one project processing unit: the documents enqueued via
`IndexQueue.put_single`, in order, and whether the unit ran to
completion or was aborted by an uncaught exception from a record
build. -/
inductive UnitResult where
  | ok : List BasicDocument → UnitResult
  | failed : List BasicDocument → UnitResult

/-- Embedding of `_feed_project_issues` after a successful `get_todos`
call: each todo is built and immediately enqueued; an exception from a
build aborts the loop, keeping the enqueues already made and skipping
every remaining todo (there is no try/except inside the loop). -/
def feed_project_issues (dsid : Nat) (projectName : String) :
    List RawTodo → UnitResult
  | [] => UnitResult.ok []
  | t :: ts =>
    match buildTodoDoc dsid projectName t with
    | none => UnitResult.failed []
    | some d =>
      match feed_project_issues dsid projectName ts with
      | UnitResult.ok ds => UnitResult.ok (d :: ds)
      | UnitResult.failed ds => UnitResult.failed (d :: ds)

/-- Documents enqueued by a unit, whether or not it completed. -/
def UnitResult.enqueued : UnitResult → List BasicDocument
  | .ok ds => ds
  | .failed ds => ds

/-- Raw project record; only `id` and `name` are read by the module. -/
structure Project where
  id : Nat
  name : String
deriving DecidableEq, Repr

/-- Outcome of a whole ingestion run (`_feed_new_documents`): either the
`get_projects` call raised and the run failed before scheduling anything,
or one unit ran per project. -/
inductive RunOutcome where
  | failed : RunOutcome
  | ran : List UnitResult → RunOutcome

/-- Embedding of `_feed_new_documents` composed with the scheduled
per-project units: iterates `get_projects()` scheduling one
`_feed_project_issues` unit per project; an exception from
`get_projects` propagates before the loop body ever runs, so no unit is
scheduled.  `getProjects` is the outcome of the single enumeration call
(`Except.error` models the `requests` exception) and `fetchTodos` gives
each unit its todo list. -/
def feed_new_documents (dsid : Nat) (getProjects : Except Unit (List Project))
    (fetchTodos : Project → List RawTodo) : RunOutcome :=
  match getProjects with
  | Except.error _ => RunOutcome.failed
  | Except.ok ps =>
    RunOutcome.ran (ps.map fun p => feed_project_issues dsid p.name (fetchTodos p))

/-- All documents enqueued during a run, across every unit. -/
def RunOutcome.enqueued : RunOutcome → List BasicDocument
  | .failed => []
  | .ran rs => rs.flatMap UnitResult.enqueued

/-- Outcome of the single probe request made by `validate_config`,
distinguishing the `requests` exception classes that matter to the
`except requests.HTTPError` clause: `httpError` is the
`requests.HTTPError` raised by `raise_for_status` on a non-success
status, `transportError` is any other `requests` transport failure
(connection refused, timeout, ...), which is NOT a subclass of
`requests.HTTPError`. -/
inductive ProbeOutcome where
  | ok : ProbeOutcome
  | httpError : ProbeOutcome
  | transportError : ProbeOutcome
deriving DecidableEq, Repr

/-- Errors that can escape `validate_config` in the embedding. -/
inductive PyError where
  | keyError : String → PyError
  | invalidDataSourceConfig : PyError
  | transportError : PyError
deriving DecidableEq, Repr

/-- Embedding of `BasecampDataSource.validate_config`.  The config dict
is a finite map from key to value; the three accesses
`config["url"]`, `config["username"]`, `config["password"]` happen in
that order while building the client, before any request, and a missing
key raises `KeyError` (uncaught: the except clause only matches
`requests.HTTPError`).  The returned list records the probe requests
actually issued (`get_projects` is called once, after the client is
built); `probe` is the outcome of that single call.  On
`ProbeOutcome.httpError` the module raises `InvalidDataSourceConfig`; a
transport failure is not a `requests.HTTPError` and propagates
unchanged; on success the probe result is discarded and the function
returns nothing. -/
def validate_config (config : String → Option String) (probe : ProbeOutcome) :
    List Unit × Except PyError Unit :=
  match config "url" with
  | none => ([], Except.error (PyError.keyError "url"))
  | some _ =>
    match config "username" with
    | none => ([], Except.error (PyError.keyError "username"))
    | some _ =>
      match config "password" with
      | none => ([], Except.error (PyError.keyError "password"))
      | some _ =>
        match probe with
        | ProbeOutcome.ok => ([()], Except.ok ())
        | ProbeOutcome.httpError => ([()], Except.error PyError.invalidDataSourceConfig)
        | ProbeOutcome.transportError => ([()], Except.error PyError.transportError)

/-- Summary record returned by a page of `todos.json`; the module reads
only its `url`, the locator of the detail fetch. -/
structure Summary where
  url : String
deriving DecidableEq, Repr

/-- A request issued by `get_todos`: a page request with its `page`
query parameter, or a detail request to a summary locator. -/
inductive Req where
  | page : Nat → Req
  | detail : String → Req
deriving DecidableEq, Repr

def isPageReq : Req → Bool
  | Req.page _ => true
  | Req.detail _ => false

/-- Abstract remote environment for `get_todos`: the response to the
page request with parameter `n`, and the response to a detail request,
where `Except.error ()` models a request whose `raise_for_status`
raises (or that fails in transport). -/
structure TodoEnv (τ : Type) where
  page : Nat → Except Unit (List Summary)
  detail : String → Except Unit τ

/-- Result of a `get_todos` call: the returned list, an HTTP abort, or
fuel exhaustion (modelling a non-terminating `while True` loop on an
environment with no empty page). -/
inductive Outcome (τ : Type) where
  | ok : List τ → Outcome τ
  | httpError : Outcome τ
  | diverged : Outcome τ
deriving DecidableEq, Repr

/-- Embedding of the inner `for basic_todo in basic_todos` loop of
`get_todos`: one detail request per summary, in page order; the first
failing detail request aborts (the exception propagates out of the
whole call).  Returns the requests issued and either the detail records
in order or the abort. -/
def fetchDetails {τ : Type} (env : TodoEnv τ) :
    List Summary → List Req × Except Unit (List τ)
  | [] => ([], Except.ok [])
  | s :: rest =>
    match env.detail s.url with
    | Except.error _ => ([Req.detail s.url], Except.error ())
    | Except.ok t =>
      match fetchDetails env rest with
      | (reqs, Except.error e) => (Req.detail s.url :: reqs, Except.error e)
      | (reqs, Except.ok ts) => (Req.detail s.url :: reqs, Except.ok (t :: ts))

/-- Embedding of the `while True` pagination loop of `get_todos`,
starting at page `p`: request page `p`; on failure the call aborts; on
success fetch every detail; if the page listing was empty, stop and
return; otherwise continue with page `p + 1`.  The fuel bounds the
number of iterations so the recursion is total; every theorem supplies
enough fuel for its environment. -/
def getTodosAux {τ : Type} (env : TodoEnv τ) : Nat → Nat → List Req × Outcome τ
  | 0, _ => ([], Outcome.diverged)
  | fuel + 1, p =>
    match env.page p with
    | Except.error _ => ([Req.page p], Outcome.httpError)
    | Except.ok summaries =>
      match fetchDetails env summaries with
      | (reqs, Except.error _) => (Req.page p :: reqs, Outcome.httpError)
      | (reqs, Except.ok ts) =>
        if summaries.isEmpty then
          (Req.page p :: reqs, Outcome.ok ts)
        else
          match getTodosAux env fuel (p + 1) with
          | (reqs2, Outcome.ok rest) => (Req.page p :: reqs ++ reqs2, Outcome.ok (ts ++ rest))
          | (reqs2, o) => (Req.page p :: reqs ++ reqs2, o)

/-- Embedding of `BasecampClient.get_todos`: pagination starts at page
1. -/
def get_todos {τ : Type} (env : TodoEnv τ) (fuel : Nat) : List Req × Outcome τ :=
  getTodosAux env fuel 1

/-- The pages `p, p+1, ..., p+n-1`. -/
def pageList (p : Nat) : Nat → List Nat
  | 0 => []
  | n + 1 => p :: pageList (p + 1) n

/-- Expected request trace of a successful `get_todos` run whose
non-empty page listings, starting at page `p`, are the members of
`pss`: each page request followed by the detail requests of its
summaries, closed by the request for the first empty page. -/
def expectedTrace : List (List Summary) → Nat → List Req
  | [], p => [Req.page p]
  | q :: pss, p =>
    Req.page p :: (q.map fun s => Req.detail s.url) ++ expectedTrace pss (p + 1)

/-! Concrete fixtures used by witnesses and counterexamples. -/

/-- The comment of the end-to-end scenario of the spec. -/
def okComment : RawComment :=
  ⟨99, ⟨"Al", "https://a/av"⟩, some "<b>ok</b>", "2023-01-02T03:05:00.000000+00:00"⟩

/-- The task item of the end-to-end scenario of the spec. -/
def okTodo : RawTodo :=
  ⟨10, ⟨"Bo", "https://b/av"⟩, "<p>Hi</p>", "https://x/10",
   "2023-01-02T03:04:05.000000+00:00", [okComment]⟩

/-- A task item whose `updated_at` does not match the timestamp
pattern. -/
def badTodo : RawTodo :=
  ⟨11, ⟨"Cy", "https://c/av"⟩, "<p>x</p>", "https://x/11", "not-a-timestamp", []⟩

/-- A task item whose raw content is the empty string. -/
def emptyContentTodo : RawTodo :=
  ⟨12, ⟨"Dee", "https://d/av"⟩, "", "https://x/12",
   "2023-01-02T03:04:05.000000+00:00", []⟩

/-- The COMMENT document the end-to-end scenario expects. -/
def commentDoc99 : BasicDocument :=
  .mk 99 0 .COMMENT "Al" (some "ok") "Al" "https://a/av" "Acme"
    "https://x/10#comment_99" ⟨2023, 1, 2, 3, 5, 0, 0, false, 0, 0⟩ []

/-- The DOCUMENT document the end-to-end scenario expects. -/
def todoDoc10 : BasicDocument :=
  .mk 10 0 .DOCUMENT "Bo" (some "Hi") "Bo" "https://b/av" "Acme"
    "https://x/10" ⟨2023, 1, 2, 3, 4, 5, 0, false, 0, 0⟩ [commentDoc99]

/-- A comment whose raw content is absent. -/
def noContentComment : RawComment :=
  ⟨100, ⟨"Ed", "https://e/av"⟩, none, "2023-01-02T03:05:00.000000+00:00"⟩

/-- The COMMENT document built from `noContentComment`. -/
def noContentDoc : BasicDocument :=
  .mk 100 0 .COMMENT "Ed" none "Ed" "https://e/av" "P" "u#comment_100"
    ⟨2023, 1, 2, 3, 5, 0, 0, false, 0, 0⟩ []

/-- A config dict holding every key. -/
def fullConfig : String → Option String := fun _ => some "v"

/-- A config dict holding no key at all. -/
def emptyConfig : String → Option String := fun _ => none

/-- The fake paginated source of the spec, pages [[a,b],[c],[]], with
every detail fetch succeeding (the detail record is the length of the
locator). -/
def envC2 : TodoEnv Nat :=
  ⟨fun n => if n = 1 then .ok [⟨"a"⟩, ⟨"b"⟩] else if n = 2 then .ok [⟨"c"⟩] else .ok [],
   fun u => .ok u.length⟩

/-- A source whose second page request fails. -/
def envC8a : TodoEnv Nat :=
  ⟨fun n => if n = 1 then .ok [⟨"a"⟩] else .error (),
   fun u => .ok u.length⟩

/-- A source whose second page succeeds but whose detail fetch for the
locator "x" fails. -/
def envC8b : TodoEnv Nat :=
  ⟨fun n => if n = 1 then .ok [⟨"a"⟩] else if n = 2 then .ok [⟨"b"⟩, ⟨"x"⟩, ⟨"c"⟩] else .ok [],
   fun u => if u = "x" then .error () else .ok u.length⟩

end Basecamp

namespace Basecamp

/-! Helper lemmas about the document builder and the feeding loop. -/

section AccessorLemmas

variable (i dsid : Nat) (ty : DocumentType) (ti : String) (co : Option String)
variable (au av lo u : String) (ts : Timestamp) (cs : List BasicDocument)

@[simp] theorem BasicDocument.id_mk :
    (BasicDocument.mk i dsid ty ti co au av lo u ts cs).id = i := rfl

@[simp] theorem BasicDocument.type_mk :
    (BasicDocument.mk i dsid ty ti co au av lo u ts cs).type = ty := rfl

@[simp] theorem BasicDocument.title_mk :
    (BasicDocument.mk i dsid ty ti co au av lo u ts cs).title = ti := rfl

@[simp] theorem BasicDocument.content_mk :
    (BasicDocument.mk i dsid ty ti co au av lo u ts cs).content = co := rfl

@[simp] theorem BasicDocument.url_mk :
    (BasicDocument.mk i dsid ty ti co au av lo u ts cs).url = u := rfl

@[simp] theorem BasicDocument.timestamp_mk :
    (BasicDocument.mk i dsid ty ti co au av lo u ts cs).timestamp = ts := rfl

@[simp] theorem BasicDocument.children_mk :
    (BasicDocument.mk i dsid ty ti co au av lo u ts cs).children = cs := rfl

end AccessorLemmas

theorem buildComment_shape (dsid : Nat) (pn app : String) (c : RawComment)
    (d : BasicDocument) (h : buildComment dsid pn app c = some d) :
    d.type = DocumentType.COMMENT ∧ d.children = [] ∧
      d.url = app ++ "#comment_" ++ toString c.id ∧ d.title = c.creator.name ∧
      d.content = (if isTruthy c.content then some (html_to_text (c.content.getD "")) else none) ∧
      (∃ ts, parseTimestamp c.updated_at = some ts ∧ d.timestamp = ts) := by
  unfold buildComment at h
  cases hts : parseTimestamp c.updated_at with
  | none => rw [hts] at h; exact absurd h (by simp)
  | some ts =>
    rw [hts] at h
    have hd := Option.some.inj h
    subst hd
    exact ⟨rfl, rfl, rfl, rfl, rfl, ts, rfl, rfl⟩

theorem buildChildren_spec (dsid : Nat) (pn app : String) :
    ∀ (cs : List RawComment) (ds : List BasicDocument),
      buildChildren dsid pn app cs = some ds →
      ds.length = cs.length ∧
        ∀ (i : Nat) (h1 : i < cs.length) (h2 : i < ds.length),
          buildComment dsid pn app (cs.get ⟨i, h1⟩) = some (ds.get ⟨i, h2⟩)
  | [], ds, h => by
    unfold buildChildren at h
    have hd := Option.some.inj h
    subst hd
    exact ⟨rfl, fun i h1 _ => absurd h1 (by simp)⟩
  | c :: cs, ds, h => by
    unfold buildChildren at h
    cases hc : buildComment dsid pn app c with
    | none => rw [hc] at h; exact absurd h (by simp)
    | some d =>
      rw [hc] at h
      cases hcs : buildChildren dsid pn app cs with
      | none => rw [hcs] at h; exact absurd h (by simp)
      | some ds' =>
        rw [hcs] at h
        have hd := Option.some.inj h
        subst hd
        have ih := buildChildren_spec dsid pn app cs ds' hcs
        refine ⟨by simp [ih.1], fun i h1 h2 => ?_⟩
        cases i with
        | zero => simpa using hc
        | succ i =>
          have h1' : i < cs.length := by simpa using h1
          have h2' : i < ds'.length := by simpa using h2
          simpa using ih.2 i h1' h2'

theorem buildTodoDoc_shape (dsid : Nat) (pn : String) (t : RawTodo)
    (d : BasicDocument) (h : buildTodoDoc dsid pn t = some d) :
    d.type = DocumentType.DOCUMENT ∧ d.url = t.app_url ∧ d.title = t.creator.name ∧
      d.content = some (html_to_text t.content) ∧
      buildChildren dsid pn t.app_url t.comments = some d.children ∧
      (∃ ts, parseTimestamp t.updated_at = some ts ∧ d.timestamp = ts) := by
  unfold buildTodoDoc at h
  cases hch : buildChildren dsid pn t.app_url t.comments with
  | none => rw [hch] at h; exact absurd h (by simp)
  | some children =>
    rw [hch] at h
    cases hts : parseTimestamp t.updated_at with
    | none => rw [hts] at h; exact absurd h (by simp)
    | some ts =>
      rw [hts] at h
      have hd := Option.some.inj h
      subst hd
      exact ⟨rfl, rfl, rfl, rfl, by simp [hch], ts, rfl, rfl⟩

theorem feed_project_issues_all_ok (dsid : Nat) (pn : String) :
    ∀ todos : List RawTodo,
      (∀ u ∈ todos, (buildTodoDoc dsid pn u).isSome = true) →
      feed_project_issues dsid pn todos
          = UnitResult.ok (todos.filterMap (buildTodoDoc dsid pn)) ∧
        (todos.filterMap (buildTodoDoc dsid pn)).length = todos.length
  | [], _ => ⟨rfl, rfl⟩
  | t :: ts, h => by
    obtain ⟨d, hd⟩ := Option.isSome_iff_exists.mp (h t (List.mem_cons_self t ts))
    have ih := feed_project_issues_all_ok dsid pn ts
      (fun u hu => h u (List.mem_cons_of_mem t hu))
    unfold feed_project_issues
    rw [hd, ih.1]
    constructor
    · simp [List.filterMap_cons, hd]
    · simp [List.filterMap_cons, hd, ih.2]

/-! Claim theorems for the builder, scheduler and config validator. -/

/-- Claim C1 counterexample: in `_feed_project_issues` there is no
try/except around the record build, so a malformed timestamp on the
first task item aborts the whole unit; the sibling task item after it —
which builds fine on its own — is never enqueued, and the run of the
unit enqueues nothing at all. -/
theorem claim_C1_counterexample :
    (buildTodoDoc 0 "P" okTodo).isSome = true
    ∧ feed_project_issues 0 "P" [badTodo, okTodo] = UnitResult.failed []
    ∧ (feed_project_issues 0 "P" [badTodo, okTodo]).enqueued = [] :=
  ⟨rfl, rfl, rfl⟩

/-- Claim C1 (amended): a record that fails document building aborts the
project unit at that record: the task items before it in iteration
order (all building successfully) have already been built and enqueued,
one enqueue each, and every sibling task item after the failing one is
skipped — the failure is NOT isolated to the single record. -/
theorem claim_C1 (dsid : Nat) (pn : String) (pre : List RawTodo) (bad : RawTodo)
    (rest : List RawTodo)
    (hpre : ∀ t ∈ pre, (buildTodoDoc dsid pn t).isSome = true)
    (hbad : buildTodoDoc dsid pn bad = none) :
    feed_project_issues dsid pn (pre ++ bad :: rest)
      = UnitResult.failed (pre.filterMap (buildTodoDoc dsid pn)) := by
  induction pre with
  | nil => simp [feed_project_issues, hbad]
  | cons t ts ih =>
    obtain ⟨d, hd⟩ := Option.isSome_iff_exists.mp (hpre t (List.mem_cons_self t ts))
    have ih' := ih (fun u hu => hpre u (List.mem_cons_of_mem t hu))
    simp only [List.cons_append]
    unfold feed_project_issues
    rw [hd, ih']
    simp [List.filterMap_cons, hd]

theorem claim_C1_witness :
    feed_project_issues 0 "Acme" [okTodo, badTodo, okTodo]
      = UnitResult.failed ([okTodo].filterMap (buildTodoDoc 0 "Acme")) :=
  claim_C1 0 "Acme" [okTodo] badTodo [okTodo]
    (by intro t ht; rw [List.mem_singleton] at ht; subst ht; rfl) rfl

/-- Claim C3 counterexample: a task item whose raw content is the empty
string still builds, and the built DOCUMENT content is `some ""` — a
present empty-string value, not absent — because the parent branch
applies `html_to_text` unconditionally, with no emptiness check. -/
theorem claim_C3_counterexample :
    (buildTodoDoc 0 "P" emptyContentTodo).map BasicDocument.content = some (some "")
    ∧ (some "" : Option String) ≠ none :=
  ⟨rfl, by simp⟩

/-- Claim C3 (amended): the empty-or-absent-content-becomes-absent rule
holds for COMMENT children only: a falsy raw comment content yields an
absent content and a truthy one yields the plain-text conversion; the
DOCUMENT parent content is always the conversion of the raw content,
present even when the raw content is empty. -/
theorem claim_C3 (dsid : Nat) (pn app : String) (c : RawComment) (t : RawTodo)
    (d e : BasicDocument) :
    (buildComment dsid pn app c = some d → isTruthy c.content = false → d.content = none)
    ∧ (buildComment dsid pn app c = some d → ∀ s, c.content = some s → s ≠ "" →
        d.content = some (html_to_text s))
    ∧ (buildTodoDoc dsid pn t = some e → e.content = some (html_to_text t.content)) := by
  refine ⟨fun h hf => ?_, fun h s hs hne => ?_,
    fun h => (buildTodoDoc_shape dsid pn t e h).2.2.2.1⟩
  · have hc := (buildComment_shape dsid pn app c d h).2.2.2.2.1
    rw [hc, hf]
    simp
  · have hc := (buildComment_shape dsid pn app c d h).2.2.2.2.1
    rw [hc, hs]
    simp [isTruthy, String.isEmpty_iff, hne]

theorem claim_C3_witness :
    noContentDoc.content = none
    ∧ todoDoc10.content = some (html_to_text okTodo.content) :=
  ⟨(claim_C3 0 "P" "u" noContentComment okTodo noContentDoc todoDoc10).1 rfl rfl,
   (claim_C3 0 "Acme" "u" noContentComment okTodo noContentDoc todoDoc10).2.2 rfl⟩

/-- Claim C4 counterexample: the except clause of `validate_config`
matches `requests.HTTPError` only; a transport failure during the probe
is not such an error, so it propagates unchanged instead of being
translated to `InvalidDataSourceConfig` — refuting "every non-success
HTTP response or transport failure is translated". -/
theorem claim_C4_counterexample :
    validate_config fullConfig ProbeOutcome.transportError
      = ([()], Except.error PyError.transportError)
    ∧ (Except.error PyError.transportError : Except PyError Unit)
        ≠ Except.error PyError.invalidDataSourceConfig :=
  ⟨rfl, by simp⟩

/-- Claim C4 (amended): for every config carrying the three keys,
`validate_config` performs exactly one probe request; a non-success
HTTP status from the probe is translated to `InvalidDataSourceConfig`;
a successful probe returns without any retained state (the probe result
is discarded); but a transport failure propagates untranslated. -/
theorem claim_C4 (config : String → Option String) (probe : ProbeOutcome)
    (hu : (config "url").isSome = true) (hn : (config "username").isSome = true)
    (hp : (config "password").isSome = true) :
    (validate_config config probe).1 = [()]
    ∧ (probe = ProbeOutcome.httpError →
        validate_config config probe = ([()], Except.error PyError.invalidDataSourceConfig))
    ∧ (probe = ProbeOutcome.ok → validate_config config probe = ([()], Except.ok ()))
    ∧ (probe = ProbeOutcome.transportError →
        validate_config config probe = ([()], Except.error PyError.transportError)) := by
  obtain ⟨u, hu⟩ := Option.isSome_iff_exists.mp hu
  obtain ⟨n, hn⟩ := Option.isSome_iff_exists.mp hn
  obtain ⟨p, hp⟩ := Option.isSome_iff_exists.mp hp
  unfold validate_config
  rw [hu, hn, hp]
  cases probe <;> simp

theorem claim_C4_witness :
    (validate_config fullConfig ProbeOutcome.httpError).1 = [()]
    ∧ (ProbeOutcome.httpError = ProbeOutcome.httpError →
        validate_config fullConfig ProbeOutcome.httpError
          = ([()], Except.error PyError.invalidDataSourceConfig))
    ∧ (ProbeOutcome.httpError = ProbeOutcome.ok →
        validate_config fullConfig ProbeOutcome.httpError = ([()], Except.ok ()))
    ∧ (ProbeOutcome.httpError = ProbeOutcome.transportError →
        validate_config fullConfig ProbeOutcome.httpError
          = ([()], Except.error PyError.transportError)) :=
  claim_C4 fullConfig ProbeOutcome.httpError rfl rfl rfl

/-- Claim C6: when every record of the unit builds, the feeding loop
makes exactly one enqueue call per raw task item, in order; a built
parent is a DOCUMENT whose children are exactly the COMMENT documents
of the raw comments of the item, index by index in source order, each
child a COMMENT with no children of its own, and an item with zero
comments yields an empty children sequence. -/
theorem claim_C6 (dsid : Nat) (pn : String) (todos : List RawTodo) (t : RawTodo)
    (d : BasicDocument)
    (hall : ∀ u ∈ todos, (buildTodoDoc dsid pn u).isSome = true) :
    (feed_project_issues dsid pn todos = UnitResult.ok (todos.filterMap (buildTodoDoc dsid pn))
      ∧ (todos.filterMap (buildTodoDoc dsid pn)).length = todos.length)
    ∧ (buildTodoDoc dsid pn t = some d →
        d.type = DocumentType.DOCUMENT
        ∧ d.children.length = t.comments.length
        ∧ (∀ (i : Nat) (h1 : i < t.comments.length) (h2 : i < d.children.length),
            buildComment dsid pn t.app_url (t.comments.get ⟨i, h1⟩)
              = some (d.children.get ⟨i, h2⟩))
        ∧ (∀ ch ∈ d.children, ch.type = DocumentType.COMMENT ∧ ch.children = [])
        ∧ (t.comments = [] → d.children = [])) := by
  refine ⟨feed_project_issues_all_ok dsid pn todos hall, fun hd => ?_⟩
  obtain ⟨hty, _, _, _, hch, _⟩ := buildTodoDoc_shape dsid pn t d hd
  obtain ⟨hlen, hget⟩ := buildChildren_spec dsid pn t.app_url t.comments d.children hch
  refine ⟨hty, hlen, hget, fun ch hmem => ?_, fun hnil => ?_⟩
  · obtain ⟨⟨i, hi⟩, hgeteq⟩ := List.mem_iff_get.mp hmem
    have h1 : i < t.comments.length := by omega
    have hcomm := hget i h1 hi
    rw [hgeteq] at hcomm
    obtain ⟨a, b, _⟩ := buildComment_shape dsid pn t.app_url _ ch hcomm
    exact ⟨a, b⟩
  · have hzero : d.children.length = 0 := by rw [hlen, hnil]; rfl
    exact List.length_eq_zero.mp hzero

theorem claim_C6_witness :
    feed_project_issues 0 "Acme" [okTodo]
        = UnitResult.ok ([okTodo].filterMap (buildTodoDoc 0 "Acme"))
    ∧ todoDoc10.children.length = okTodo.comments.length
    ∧ (∀ ch ∈ todoDoc10.children, ch.type = DocumentType.COMMENT ∧ ch.children = []) :=
  ⟨(claim_C6 0 "Acme" [okTodo] okTodo todoDoc10
      (by intro u hu; rw [List.mem_singleton] at hu; subst hu; rfl)).1.1,
   ((claim_C6 0 "Acme" [okTodo] okTodo todoDoc10
      (by intro u hu; rw [List.mem_singleton] at hu; subst hu; rfl)).2 rfl).2.1,
   ((claim_C6 0 "Acme" [okTodo] okTodo todoDoc10
      (by intro u hu; rw [List.mem_singleton] at hu; subst hu; rfl)).2 rfl).2.2.2.1⟩

/-- Claim C7: when the single `get_projects` enumeration call raises,
the loop body of `_feed_new_documents` never runs: no project unit is
scheduled, the run fails as a whole, and zero documents are
enqueued. -/
theorem claim_C7 (dsid : Nat) (fetchTodos : Project → List RawTodo) :
    feed_new_documents dsid (Except.error ()) fetchTodos = RunOutcome.failed
    ∧ (feed_new_documents dsid (Except.error ()) fetchTodos).enqueued = [] :=
  ⟨rfl, rfl⟩

/-- Claim C9: the end-to-end scenario of the spec: one project "Acme"
with the single task item `okTodo` (creator Bo, content `<p>Hi</p>`,
app_url https://x/10, one comment by Al with content `<b>ok</b>`)
yields exactly one enqueue call whose DOCUMENT has title "Bo", content
"Hi", url "https://x/10" and whose single child is a COMMENT with title
"Al", content "ok", url "https://x/10#comment_99". -/
theorem claim_C9 :
    feed_project_issues 0 "Acme" [okTodo] = UnitResult.ok [todoDoc10]
    ∧ todoDoc10.type = DocumentType.DOCUMENT
    ∧ todoDoc10.title = "Bo"
    ∧ todoDoc10.content = some "Hi"
    ∧ todoDoc10.url = "https://x/10"
    ∧ todoDoc10.children = [commentDoc99]
    ∧ commentDoc99.type = DocumentType.COMMENT
    ∧ commentDoc99.title = "Al"
    ∧ commentDoc99.content = some "ok"
    ∧ commentDoc99.url = "https://x/10#comment_99" :=
  ⟨rfl, rfl, rfl, rfl, rfl, rfl, rfl, rfl, rfl, rfl⟩

/-- Claim C10: a config dict missing any of the three required keys
makes `validate_config` raise the uncaught key-lookup error for the
first missing key, before any probe request is issued (the recorded
probe trace is empty); that error is a different kind from
`InvalidDataSourceConfig`, which only HTTP errors of the probe are
translated to. -/
theorem claim_C10 (config : String → Option String) (probe : ProbeOutcome)
    (h : config "url" = none ∨ config "username" = none ∨ config "password" = none) :
    ∃ k, validate_config config probe = ([], Except.error (PyError.keyError k))
      ∧ PyError.keyError k ≠ PyError.invalidDataSourceConfig := by
  unfold validate_config
  cases hu : config "url" with
  | none => exact ⟨"url", rfl, by simp⟩
  | some u =>
    cases hn : config "username" with
    | none => exact ⟨"username", rfl, by simp⟩
    | some n =>
      cases hp : config "password" with
      | none => exact ⟨"password", rfl, by simp⟩
      | some p =>
        rcases h with h | h | h
        · rw [hu] at h; exact Option.noConfusion h
        · rw [hn] at h; exact Option.noConfusion h
        · rw [hp] at h; exact Option.noConfusion h

theorem claim_C10_witness :
    ∃ k, validate_config emptyConfig ProbeOutcome.ok
        = ([], Except.error (PyError.keyError k))
      ∧ PyError.keyError k ≠ PyError.invalidDataSourceConfig :=
  claim_C10 emptyConfig ProbeOutcome.ok (Or.inl rfl)

/-! Helper lemmas about the pagination loop of `get_todos`. -/

theorem fetchDetails_ok {τ : Type} (env : TodoEnv τ) (d : String → τ) :
    ∀ l : List Summary, (∀ x ∈ l, env.detail x.url = Except.ok (d x.url)) →
      fetchDetails env l
        = (l.map fun s => Req.detail s.url, Except.ok (l.map fun s => d s.url))
  | [], _ => rfl
  | s :: rest, h => by
    have hs := h s (List.mem_cons_self s rest)
    have ih := fetchDetails_ok env d rest (fun x hx => h x (List.mem_cons_of_mem s hx))
    unfold fetchDetails
    rw [hs, ih]
    simp

theorem fetchDetails_fail {τ : Type} (env : TodoEnv τ) (d : String → τ) :
    ∀ (pre : List Summary) (s : Summary) (rest : List Summary),
      (∀ x ∈ pre, env.detail x.url = Except.ok (d x.url)) →
      env.detail s.url = Except.error () →
      fetchDetails env (pre ++ s :: rest)
        = ((pre.map fun x => Req.detail x.url) ++ [Req.detail s.url], Except.error ())
  | [], s, rest, _, hs => by
    simp only [List.nil_append, List.map_nil]
    unfold fetchDetails
    rw [hs]
  | x :: pre, s, rest, h, hs => by
    have hx := h x (List.mem_cons_self x pre)
    have ih := fetchDetails_fail env d pre s rest
      (fun y hy => h y (List.mem_cons_of_mem x hy)) hs
    simp only [List.cons_append]
    unfold fetchDetails
    rw [hx, ih]
    simp

theorem getTodosAux_ok {τ : Type} (env : TodoEnv τ) (d : String → τ) :
    ∀ (pss : List (List Summary)) (p fuel : Nat),
      (∀ i l, pss[i]? = some l → env.page (p + i) = Except.ok l) →
      env.page (p + pss.length) = Except.ok [] →
      (∀ l ∈ pss, ∀ x ∈ l, env.detail x.url = Except.ok (d x.url)) →
      (∀ l ∈ pss, l ≠ []) →
      pss.length + 1 ≤ fuel →
      getTodosAux env fuel p
        = (expectedTrace pss p, Outcome.ok (pss.flatMap fun l => l.map fun x => d x.url))
  | _, _, 0, _, _, _, _, h5 => absurd h5 (by omega)
  | [], p, fuel + 1, _, h2, _, _, _ => by
    simp only [List.length_nil, Nat.add_zero] at h2
    unfold getTodosAux
    rw [h2]
    simp [fetchDetails, expectedTrace]
  | q :: pss, p, fuel + 1, h1, h2, h3, h4, h5 => by
    have hq : env.page p = Except.ok q := by
      have h := h1 0 q (by simp)
      simpa using h
    have hdet := fetchDetails_ok env d q (h3 q (List.mem_cons_self q pss))
    have hne : q.isEmpty = false :=
      List.isEmpty_eq_false.mpr (h4 q (List.mem_cons_self q pss))
    have ih := getTodosAux_ok env d pss (p + 1) fuel
      (fun i l hl => by
        have h := h1 (i + 1) l (by simpa using hl)
        have e : p + (i + 1) = p + 1 + i := by omega
        rwa [e] at h)
      (by
        have h := h2
        simp only [List.length_cons] at h
        have e : p + (pss.length + 1) = p + 1 + pss.length := by omega
        rwa [e] at h)
      (fun l hl => h3 l (List.mem_cons_of_mem q hl))
      (fun l hl => h4 l (List.mem_cons_of_mem q hl))
      (by simp only [List.length_cons] at h5; omega)
    unfold getTodosAux
    rw [hq]
    simp only [hdet, hne, ih]
    simp [expectedTrace, List.flatMap_cons]

theorem getTodosAux_pageFail {τ : Type} (env : TodoEnv τ) (d : String → τ) :
    ∀ (pss : List (List Summary)) (p fuel : Nat),
      (∀ i l, pss[i]? = some l → env.page (p + i) = Except.ok l) →
      env.page (p + pss.length) = Except.error () →
      (∀ l ∈ pss, ∀ x ∈ l, env.detail x.url = Except.ok (d x.url)) →
      (∀ l ∈ pss, l ≠ []) →
      pss.length + 1 ≤ fuel →
      getTodosAux env fuel p = (expectedTrace pss p, Outcome.httpError)
  | _, _, 0, _, _, _, _, h5 => absurd h5 (by omega)
  | [], p, fuel + 1, _, h2, _, _, _ => by
    simp only [List.length_nil, Nat.add_zero] at h2
    unfold getTodosAux
    rw [h2]
    simp [expectedTrace]
  | q :: pss, p, fuel + 1, h1, h2, h3, h4, h5 => by
    have hq : env.page p = Except.ok q := by
      have h := h1 0 q (by simp)
      simpa using h
    have hdet := fetchDetails_ok env d q (h3 q (List.mem_cons_self q pss))
    have hne : q.isEmpty = false :=
      List.isEmpty_eq_false.mpr (h4 q (List.mem_cons_self q pss))
    have ih := getTodosAux_pageFail env d pss (p + 1) fuel
      (fun i l hl => by
        have h := h1 (i + 1) l (by simpa using hl)
        have e : p + (i + 1) = p + 1 + i := by omega
        rwa [e] at h)
      (by
        have h := h2
        simp only [List.length_cons] at h
        have e : p + (pss.length + 1) = p + 1 + pss.length := by omega
        rwa [e] at h)
      (fun l hl => h3 l (List.mem_cons_of_mem q hl))
      (fun l hl => h4 l (List.mem_cons_of_mem q hl))
      (by simp only [List.length_cons] at h5; omega)
    unfold getTodosAux
    rw [hq]
    simp only [hdet, hne, ih]
    simp [expectedTrace]

theorem getTodosAux_detailFail {τ : Type} (env : TodoEnv τ) (d : String → τ) :
    ∀ (pss : List (List Summary)) (p fuel : Nat) (pre : List Summary)
      (s : Summary) (rest : List Summary),
      (∀ i l, pss[i]? = some l → env.page (p + i) = Except.ok l) →
      env.page (p + pss.length) = Except.ok (pre ++ s :: rest) →
      (∀ l ∈ pss, ∀ x ∈ l, env.detail x.url = Except.ok (d x.url)) →
      (∀ x ∈ pre, env.detail x.url = Except.ok (d x.url)) →
      env.detail s.url = Except.error () →
      (∀ l ∈ pss, l ≠ []) →
      pss.length + 1 ≤ fuel →
      getTodosAux env fuel p
        = (expectedTrace pss p ++ (pre.map fun x => Req.detail x.url)
            ++ [Req.detail s.url], Outcome.httpError)
  | _, _, 0, _, _, _, _, _, _, _, _, _, h7 => absurd h7 (by omega)
  | [], p, fuel + 1, pre, s, rest, _, h2, _, hpre, hs, _, _ => by
    simp only [List.length_nil, Nat.add_zero] at h2
    have hdet := fetchDetails_fail env d pre s rest hpre hs
    unfold getTodosAux
    rw [h2]
    simp only [hdet]
    simp [expectedTrace]
  | q :: pss, p, fuel + 1, pre, s, rest, h1, h2, h3, hpre, hs, h4, h7 => by
    have hq : env.page p = Except.ok q := by
      have h := h1 0 q (by simp)
      simpa using h
    have hdet := fetchDetails_ok env d q (h3 q (List.mem_cons_self q pss))
    have hne : q.isEmpty = false :=
      List.isEmpty_eq_false.mpr (h4 q (List.mem_cons_self q pss))
    have ih := getTodosAux_detailFail env d pss (p + 1) fuel pre s rest
      (fun i l hl => by
        have h := h1 (i + 1) l (by simpa using hl)
        have e : p + (i + 1) = p + 1 + i := by omega
        rwa [e] at h)
      (by
        have h := h2
        simp only [List.length_cons] at h
        have e : p + (pss.length + 1) = p + 1 + pss.length := by omega
        rwa [e] at h)
      (fun l hl => h3 l (List.mem_cons_of_mem q hl))
      hpre hs
      (fun l hl => h4 l (List.mem_cons_of_mem q hl))
      (by simp only [List.length_cons] at h7; omega)
    unfold getTodosAux
    rw [hq]
    simp only [hdet, hne, ih]
    simp [expectedTrace]

theorem filterPage_detailMap (q : List Summary) :
    (q.map fun s => Req.detail s.url).filter isPageReq = [] := by
  induction q with
  | nil => rfl
  | cons s q ih => simp [isPageReq, ih]

theorem expectedTrace_filter : ∀ (pss : List (List Summary)) (p : Nat),
    (expectedTrace pss p).filter isPageReq = (pageList p (pss.length + 1)).map Req.page
  | [], p => by simp [expectedTrace, pageList, isPageReq]
  | q :: pss, p => by
    have ih := expectedTrace_filter pss (p + 1)
    simp [expectedTrace, pageList, List.filter_append, filterPage_detailMap, isPageReq, ih]

theorem countPage_detailMap (q : List Summary) (n : Nat) :
    (q.map fun s => Req.detail s.url).count (Req.page n) = 0 := by
  induction q with
  | nil => rfl
  | cons s q ih => simp [List.count_cons, ih]

theorem expectedTrace_count_lastPage : ∀ (pss : List (List Summary)) (p : Nat),
    (expectedTrace pss p).count (Req.page (p + pss.length)) = 1
  | [], p => by simp [expectedTrace]
  | q :: pss, p => by
    have ih := expectedTrace_count_lastPage pss (p + 1)
    have e : p + (q :: pss).length = p + 1 + pss.length := by
      simp only [List.length_cons]; omega
    rw [e]
    have hne : ¬(Req.page p = Req.page (p + 1 + pss.length)) := by
      intro h; injection h with h2; omega
    simp [expectedTrace, List.count_cons, List.count_append,
      countPage_detailMap, ih, hne]

theorem expectedTrace_getLast : ∀ (pss : List (List Summary)) (p : Nat),
    (expectedTrace pss p).getLast? = some (Req.page (p + pss.length))
  | [], p => by simp [expectedTrace]
  | q :: pss, p => by
    have ih := expectedTrace_getLast pss (p + 1)
    have e : p + (q :: pss).length = p + 1 + pss.length := by
      simp only [List.length_cons]; omega
    rw [e]
    show (Req.page p :: ((q.map fun s => Req.detail s.url) ++ expectedTrace pss (p + 1))).getLast?
      = some (Req.page (p + 1 + pss.length))
    rw [show Req.page p :: ((q.map fun s => Req.detail s.url) ++ expectedTrace pss (p + 1))
        = [Req.page p] ++ ((q.map fun s => Req.detail s.url) ++ expectedTrace pss (p + 1))
      from rfl]
    rw [List.getLast?_append, List.getLast?_append, ih]
    rfl

/-- Claim C2: on a source whose non-empty page listings are exactly the
members of `pss` at pages 1..N (every further page empty, every detail
fetch succeeding), `get_todos` issues the page requests 1, 2, ..., N+1
in that order — exactly N+1 page requests, terminating on the first
empty page — with the detail request of every summary of a page, in
page order, between that page request and the next, and returns the
detail records of all summaries in pagination order. -/
theorem claim_C2 {τ : Type} (env : TodoEnv τ) (d : String → τ)
    (pss : List (List Summary)) (fuel : Nat)
    (h1 : ∀ i l, pss[i]? = some l → env.page (i + 1) = Except.ok l)
    (h2 : env.page (pss.length + 1) = Except.ok [])
    (h3 : ∀ l ∈ pss, ∀ x ∈ l, env.detail x.url = Except.ok (d x.url))
    (h4 : ∀ l ∈ pss, l ≠ [])
    (h5 : pss.length + 1 ≤ fuel) :
    get_todos env fuel
      = (expectedTrace pss 1, Outcome.ok (pss.flatMap fun l => l.map fun x => d x.url))
    ∧ (expectedTrace pss 1).filter isPageReq = (pageList 1 (pss.length + 1)).map Req.page := by
  constructor
  · unfold get_todos
    apply getTodosAux_ok env d pss 1 fuel ?_ ?_ h3 h4 h5
    · intro i l hl
      have h := h1 i l hl
      rwa [Nat.add_comm 1 i]
    · rwa [Nat.add_comm 1 pss.length]
  · exact expectedTrace_filter pss 1

theorem claim_C2_witness :
    get_todos envC2 3
      = (expectedTrace [[⟨"a"⟩, ⟨"b"⟩], [⟨"c"⟩]] 1,
         Outcome.ok (([[⟨"a"⟩, ⟨"b"⟩], [⟨"c"⟩]] : List (List Summary)).flatMap
           fun l => l.map fun x => String.length x.url))
    ∧ (expectedTrace [[⟨"a"⟩, ⟨"b"⟩], [⟨"c"⟩]] 1).filter isPageReq
        = (pageList 1 (([[⟨"a"⟩, ⟨"b"⟩], [⟨"c"⟩]] : List (List Summary)).length + 1)).map
            Req.page :=
  claim_C2 envC2 String.length [[⟨"a"⟩, ⟨"b"⟩], [⟨"c"⟩]] 3
    (by
      intro i l hl
      match i with
      | 0 => simp at hl; subst hl; rfl
      | 1 => simp at hl; subst hl; rfl
      | n + 2 => simp at hl)
    rfl
    (fun _ _ _ _ => rfl)
    (by intro l hl; simp at hl; rcases hl with rfl | rfl <;> simp)
    (by decide)

/-- Claim C8: on a source behaving as in C2 up to page N, if the request
for page N+1 fails, the whole `get_todos` call aborts with the HTTP
error — the result carries none of the detail records already fetched —
after issuing exactly the success-shaped trace, in which the failing
page request appears exactly once and is the last request made (nothing
is retried); and if instead page N+1 lists `pre ++ s :: rest` and the
detail fetch for `s` fails after those of `pre` succeeded, the call
aborts with the HTTP error immediately after that failing detail
request, again discarding every fetched record. -/
theorem claim_C8 {τ : Type} (env : TodoEnv τ) (d : String → τ)
    (pss : List (List Summary)) (fuel : Nat)
    (h1 : ∀ i l, pss[i]? = some l → env.page (i + 1) = Except.ok l)
    (h3 : ∀ l ∈ pss, ∀ x ∈ l, env.detail x.url = Except.ok (d x.url))
    (h4 : ∀ l ∈ pss, l ≠ [])
    (h5 : pss.length + 1 ≤ fuel) :
    (env.page (pss.length + 1) = Except.error () →
      get_todos env fuel = (expectedTrace pss 1, Outcome.httpError)
      ∧ (expectedTrace pss 1).count (Req.page (pss.length + 1)) = 1
      ∧ (expectedTrace pss 1).getLast? = some (Req.page (pss.length + 1)))
    ∧ (∀ (pre : List Summary) (s : Summary) (rest : List Summary),
        env.page (pss.length + 1) = Except.ok (pre ++ s :: rest) →
        (∀ x ∈ pre, env.detail x.url = Except.ok (d x.url)) →
        env.detail s.url = Except.error () →
        get_todos env fuel
          = (expectedTrace pss 1 ++ (pre.map fun x => Req.detail x.url)
              ++ [Req.detail s.url], Outcome.httpError)) := by
  constructor
  · intro herr
    refine ⟨?_, ?_, ?_⟩
    · unfold get_todos
      apply getTodosAux_pageFail env d pss 1 fuel ?_ ?_ h3 h4 h5
      · intro i l hl
        have h := h1 i l hl
        rwa [Nat.add_comm 1 i]
      · rwa [Nat.add_comm 1 pss.length]
    · have h := expectedTrace_count_lastPage pss 1
      rwa [Nat.add_comm 1 pss.length] at h
    · have h := expectedTrace_getLast pss 1
      rwa [Nat.add_comm 1 pss.length] at h
  · intro pre s rest hpage hpre hs
    unfold get_todos
    apply getTodosAux_detailFail env d pss 1 fuel pre s rest ?_ ?_ h3 hpre hs h4 h5
    · intro i l hl
      have h := h1 i l hl
      rwa [Nat.add_comm 1 i]
    · rwa [Nat.add_comm 1 pss.length]

theorem claim_C8_witness :
    (get_todos envC8a 2 = (expectedTrace [[⟨"a"⟩]] 1, Outcome.httpError)
      ∧ (expectedTrace [[(⟨"a"⟩ : Summary)]] 1).count (Req.page 2) = 1
      ∧ (expectedTrace [[(⟨"a"⟩ : Summary)]] 1).getLast? = some (Req.page 2))
    ∧ get_todos envC8b 2
        = (expectedTrace [[⟨"a"⟩]] 1
            ++ ([(⟨"b"⟩ : Summary)].map fun x => Req.detail x.url)
            ++ [Req.detail (⟨"x"⟩ : Summary).url], Outcome.httpError) :=
  ⟨(claim_C8 envC8a String.length [[⟨"a"⟩]] 2
      (by
        intro i l hl
        match i with
        | 0 => simp at hl; subst hl; rfl
        | n + 1 => simp at hl)
      (by intro l hl x hx; simp at hl; subst hl; simp at hx; subst hx; rfl)
      (by intro l hl; simp at hl; subst hl; simp)
      (by decide)).1 rfl,
   (claim_C8 envC8b String.length [[⟨"a"⟩]] 2
      (by
        intro i l hl
        match i with
        | 0 => simp at hl; subst hl; rfl
        | n + 1 => simp at hl)
      (by intro l hl x hx; simp at hl; subst hl; simp at hx; subst hx; rfl)
      (by intro l hl; simp at hl; subst hl; simp)
      (by decide)).2 [⟨"b"⟩] ⟨"x"⟩ [⟨"c"⟩] rfl
      (by intro x hx; simp at hx; subst hx; rfl) rfl⟩

end Basecamp
